import Mathlib

/-!
Verification of the authorization core of the quorum permissioned-ledger node:
the RPC security middleware (`rpc/security.go`) and the contract-capability
matching engine of the security plugin (specified in §4.1–§4.2 of the design
document; its unit tests live in `plugin/security/service_test.go`).

Shallow embedding conventions:
* Go strings are Lean `String`s; raw byte buffers (`json.RawMessage`) are
  `List Char`.
* `time.Time` instants are `Int` nanoseconds since the Unix epoch; the
  current time is passed explicitly as a `now` parameter.
* Go `error` values are `Option GoError` (a `nil` error is `none`);
  functions returning `(T, error)` become `Except GoError T`.
* External collaborators (`multitenancy.Authorize`, `multitenancy.ExtractPSI`)
  are passed as function parameters, mirroring the collaborator interfaces in
  §6 of the spec.
-/

namespace Quorum

/-- Go error values relevant to the security middleware.
`securityError` is `rpc.securityError` (implements `rpc.Error` with code
-32001); `errNotAuthorized` is the `multitenancy.ErrNotAuthorized` sentinel
(a plain `errors.New` error); `plain` covers `fmt.Errorf` errors. -/
inductive GoError where
  | securityError (message : String)
  | errNotAuthorized
  | plain (message : String)
deriving Repr, DecidableEq

/-- `google.protobuf.Timestamp`: seconds and nanos since the Unix epoch. -/
structure Timestamp where
  seconds : Int
  nanos : Int
deriving Repr, DecidableEq

/-- A method-level granted authority (`proto.GrantedAuthority` as consumed by
`rpc.verifyAccess`): a `(Service, Method)` pair, either field may be `"*"`. -/
structure MethodAuthority where
  service : String
  method : String
deriving Repr, DecidableEq

/-- `proto.PreAuthenticatedAuthenticationToken`: the fields read by the RPC
security middleware. `expiredAt` is the optional `ExpiredAt` protobuf
timestamp (`none` when the field is absent/nil). -/
structure Token where
  authorities : List MethodAuthority
  expiredAt : Option Timestamp
deriving Repr, DecidableEq

/-- `ptypes.validateTimestamp` from the golang/protobuf library: a nil
timestamp is an error; otherwise seconds must lie in [0001-01-01, 10000-01-01)
and nanos in [0, 1e9). Returns the error message, `none` when valid. -/
def validateTimestamp : Option Timestamp → Option String
  | none => some "timestamp: nil Timestamp"
  | some ts =>
    if ts.seconds < -62135596800 then
      some "timestamp before 0001-01-01"
    else if ts.seconds ≥ 253402300800 then
      some "timestamp after 10000-01-01"
    else if ts.nanos < 0 ∨ ts.nanos ≥ 1000000000 then
      some "timestamp has out-of-range nanos"
    else
      none

/-- `ptypes.Timestamp` from the golang/protobuf library: converts a protobuf
timestamp to a `time.Time` (here `Int` nanoseconds since the epoch; a nil
timestamp converts like the zero timestamp) together with the validation
error. -/
def ptypesTimestamp (ts : Option Timestamp) : Int × Option String :=
  match ts with
  | none => (0, validateTimestamp none)
  | some t => (t.seconds * 1000000000 + t.nanos, validateTimestamp (some t))

/-- `rpc.verifyExpiration`: a nil token passes; a token whose `ExpiredAt`
fails protobuf conversion yields an `invalid timestamp in token` error; the
token passes while `now` is strictly before the expiry instant and otherwise
fails with the `token expired` security error. -/
def verifyExpiration (now : Int) (token : Option Token) : Option GoError :=
  match token with
  | none => none
  | some tok =>
    match ptypesTimestamp tok.expiredAt with
    | (_, some e) => some (GoError.plain ("invalid timestamp in token: " ++ e))
    | (expiredAt, none) =>
      if now < expiredAt then none
      else some (GoError.securityError "token expired")

/-- The qualified-method-name separator (`rpc.serviceMethodSeparator`, a
single underscore per §6 of the spec). -/
def serviceMethodSeparator : String := "_"

/-- `rpc.verifyAccess`: scans the authority list in order and authorizes the
call on the first authority whose service and method both match (each either
exactly or via the `"*"` wildcard); an exhausted list yields the denial
security error naming `service_method`. -/
def verifyAccess (service method : String) (authorities : List MethodAuthority) : Option GoError :=
  match authorities with
  | [] =>
    some (GoError.securityError
      (service ++ serviceMethodSeparator ++ method ++ " - access denied"))
  | authority :: rest =>
    if authority.service = "*" ∧ authority.method = "*" then none
    else if authority.service = "*" ∧ authority.method = method then none
    else if authority.service = service ∧ authority.method = "*" then none
    else if authority.service = service ∧ authority.method = method then none
    else verifyAccess service method rest

/-- The predicate under which one method authority grants `(service, method)`:
the disjunction of the four wildcard/exact conditions of `rpc.verifyAccess`. -/
def grantsAccess (service method : String) (a : MethodAuthority) : Prop :=
  (a.service = "*" ∧ a.method = "*") ∨
  (a.service = "*" ∧ a.method = method) ∨
  (a.service = service ∧ a.method = "*") ∨
  (a.service = service ∧ a.method = method)

instance (service method : String) (a : MethodAuthority) :
    Decidable (grantsAccess service method a) := by
  unfold grantsAccess; infer_instance

/-- The generic JSON-RPC error code (`rpc.defaultErrorCode` in the
surrounding RPC package). -/
def defaultErrorCode : Int := -32000

/-- The numeric code of `rpc.securityError` (`ErrorCode() int { return -32001 }`). -/
def securityErrorCode : Int := -32001

/-- Which error values implement the `rpc.Error` interface (carry their own
`ErrorCode`): only `securityError` does among the errors produced by the
security middleware. -/
def errorCodeOf : GoError → Option Int
  | GoError.securityError _ => some securityErrorCode
  | GoError.errNotAuthorized => none
  | GoError.plain _ => none

/-- The `Error()` message of a `GoError`. -/
def errorMessageOf : GoError → String
  | GoError.securityError m => m
  | GoError.errNotAuthorized => "not authorized"
  | GoError.plain m => m

/-- The JSON-RPC protocol version string (`rpc.vsn`). -/
def vsn : String := "2.0"

/-- A JSON-RPC error object (`rpc.jsonError`): numeric code and message. -/
structure JsonError where
  code : Int
  message : String
deriving Repr, DecidableEq

/-- The fields of `rpc.jsonrpcMessage` used by the security middleware: the
version, the raw message ID, the qualified method name and the optional error
object. -/
structure JsonrpcMessage where
  version : String
  id : List Char
  method : String
  error : Option JsonError
deriving Repr, DecidableEq

/-- `rpc.securityErrorMessage`: builds the error response for a request,
copying the request's ID, defaulting the code to `defaultErrorCode` and
overriding it with `ErrorCode()` when the error implements `rpc.Error`. -/
def securityErrorMessage (forMsg : JsonrpcMessage) (err : GoError) : JsonrpcMessage :=
  { version := vsn
    id := forMsg.id
    method := ""
    error := some
      { code := match errorCodeOf err with
          | some c => c
          | none => defaultErrorCode
        message := errorMessageOf err } }

/-- Modelled from the spec: the visibility of a capability identifier or of a
requested action (§3) — `public`, `private`, or an unrecognized scheme value
(§4.1 step 2 rejects unrecognized visibilities outright). -/
inductive Visibility where
  | pub
  | priv
  | unrecognized
deriving Repr, DecidableEq

/-- Modelled from the spec: the action of a capability identifier —
`create`, `read`, `write`, or the any-action wildcard (§3). A requested
action's `action` field is one of the three concrete actions. -/
inductive Action where
  | create
  | read
  | write
  | anyAction
deriving Repr, DecidableEq

/-- Modelled from the spec: an account position — either a concrete address
or the \x22any\x22 wildcard marker (§3). -/
inductive Account where
  | anyAccount
  | addr (value : String)
deriving Repr, DecidableEq

/-- Modelled from the spec: a capability-identifier granted authority (§3):
visibility, account (address or wildcard), action, and the multi-valued
query carrying `ownedBy` (set of accounts) and `privacyKeys` (set of opaque
privacy-group key strings). The resource kind is constant and omitted. -/
structure GrantedAuthority where
  visibility : Visibility
  account : Account
  action : Action
  ownedBy : List Account
  privacyKeys : List String
deriving Repr, DecidableEq

/-- Modelled from the spec: a requested action (\x22ask\x22, §3): visibility,
action, caller account `from`, target contract account `to`, the sender's
privacy key `privateFrom` (for create), and the `parties` privacy-key set
(for read/write). -/
structure Ask where
  visibility : Visibility
  action : Action
  fromAcc : Account
  toAcc : Account
  privateFrom : String
  parties : List String
deriving Repr, DecidableEq

/-- Modelled from the spec: the ask's path-level account (§4.1 step 1) —
`from` for `create`, `to` otherwise. -/
def pathAccount (ask : Ask) : Account :=
  match ask.action with
  | Action.create => ask.fromAcc
  | _ => ask.toAcc

/-- Modelled from the spec: the account-wildcard bypass condition (§4.1
step 1) — either the granted account or the ask's path-level account is the
\x22any\x22 wildcard. -/
def accountBypass (ask : Ask) (granted : GrantedAuthority) : Bool :=
  granted.account = Account.anyAccount ∨ pathAccount ask = Account.anyAccount

/-- Modelled from the spec: visibility compatibility (§4.1 step 2) — the
granted visibility must equal the ask's scheme and an unrecognized granted
visibility is rejected outright. -/
def visibilityOk (ask : Ask) (granted : GrantedAuthority) : Bool :=
  granted.visibility ≠ Visibility.unrecognized ∧ granted.visibility = ask.visibility

/-- Modelled from the spec: action compatibility (§4.1 step 3) — the granted
action equals the requested action or is the any-action wildcard. -/
def actionOk (ask : Ask) (granted : GrantedAuthority) : Bool :=
  granted.action = ask.action ∨ granted.action = Action.anyAction

/-- Modelled from the spec: ownership compatibility (§4.1 step 4) — the
caller's counterpart (path-level) account must be in `granted.ownedBy`, or
`ownedBy` contains the \x22any\x22 wildcard. An omitted (empty) `ownedBy` set
imposes no restriction: §8's create scenarios grant creation with no
`ownedBy` at all, mirroring the omitted-set principle spelled out for
`privacyKeys` in step 5. §4.1 tags this step \x22public visibility\x22 but
§8's private-contract scenarios (wrong owner ⇒ false) check ownership for
private asks as well; the model follows §8 and applies the step to every
non-bypassed ask. -/
def ownershipOk (ask : Ask) (granted : GrantedAuthority) : Bool :=
  granted.ownedBy = [] ∨
  granted.ownedBy.contains (pathAccount ask) ∨
  granted.ownedBy.contains Account.anyAccount

/-- Modelled from the spec: privacy-key compatibility (§4.1 step 5) —
applies to private-visibility asks only, and only when the granted authority
specifies a non-empty `privacyKeys` set; for `create` the ask's
`privateFrom` must be a member of `granted.privacyKeys`, and for
`read`/`write` the ask's `parties` must intersect `granted.privacyKeys`. -/
def privacyOk (ask : Ask) (granted : GrantedAuthority) : Bool :=
  if ask.visibility = Visibility.priv ∧ granted.privacyKeys ≠ [] then
    match ask.action with
    | Action.create => granted.privacyKeys.contains ask.privateFrom
    | _ => ask.parties.any (fun p => granted.privacyKeys.contains p)
  else true

/-- Modelled from the spec: the `match` function of the security plugin's
AuthorityMatcher (§4.1), absent from the sources (only its unit tests are
present). Short-circuit order per §4.1: the account-wildcard bypass (step 1)
skips the visibility (step 2) and ownership (step 4) checks entirely; the
action check (step 3) and privacy-key check (step 5) always apply. -/
def matchAuthority (ask : Ask) (granted : GrantedAuthority) : Bool :=
  if accountBypass ask granted then
    actionOk ask granted ∧ privacyOk ask granted
  else
    visibilityOk ask granted ∧ actionOk ask granted ∧
      ownershipOk ask granted ∧ privacyOk ask granted

/-- Modelled from the spec: the inner scan of AccessDecisionManager — does
any granted authority of the token match the attribute (OR across
authorities)? -/
def anyAuthorityMatches (attr : Ask) : List GrantedAuthority → Bool
  | [] => false
  | g :: gs => if matchAuthority attr g then true else anyAuthorityMatches attr gs

/-- Modelled from the spec: `isAuthorized(token, attributes)` of the
AccessDecisionManager (§4.2), absent from the sources (only its unit tests
are present): `true` on an empty attribute list, and otherwise every
attribute must be satisfied by at least one granted authority (AND across
attributes, OR across authorities), each attribute evaluated independently
via the AuthorityMatcher. -/
def isAuthorized (authorities : List GrantedAuthority) : List Ask → Bool
  | [] => true
  | attr :: rest =>
    if anyAuthorityMatches attr authorities then isAuthorized authorities rest
    else false

/-- The reserved default private state identifier
(`types.DefaultPrivateStateIdentifier`, the non-multitenant case). -/
def DefaultPrivateStateIdentifier : List Char := "private".toList

/-- `rpc.encodePSI`: with an empty PSI the counter bytes are returned
unchanged; otherwise the ID becomes the quoted `"psi/counter"` byte string
(the Go code builds exactly `'"' ++ psi ++ "/" ++ counter ++ '"'`). -/
def encodePSI (idCounterBytes : List Char) (psi : List Char) : List Char :=
  if psi = [] then idCounterBytes
  else '"' :: psi ++ '/' :: idCounterBytes ++ ['"']

/-- `strings.Index` restricted to a single-character needle: the position of
the first occurrence, `none` when absent. -/
def indexOfChar (c : Char) : List Char → Option Nat
  | [] => none
  | x :: rest => if x = c then some 0 else (indexOfChar c rest).map (· + 1)

/-- `rpc.decodePSI`: requires the raw ID to begin and end with a double quote
and to contain a `/`; returns the substring between position 1 and the first
`/` as the PSI, and the reserved default identifier otherwise. -/
def decodePSI (id : List Char) : List Char :=
  if id.head? = some '"' ∧ id.getLast? = some '"' then
    match indexOfChar '/' id with
    | none => DefaultPrivateStateIdentifier
    | some sepIdx => (id.drop 1).take (sepIdx - 1)
  else DefaultPrivateStateIdentifier

/-- The numeric value of a hexadecimal digit character (upper or lower
case), `none` for a non-hex character — the `unhex` helper of the Go `url`
package. -/
def hexDigitVal (c : Char) : Option Nat :=
  if '0' ≤ c ∧ c ≤ '9' then some (c.toNat - '0'.toNat)
  else if 'a' ≤ c ∧ c ≤ 'f' then some (c.toNat - 'a'.toNat + 10)
  else if 'A' ≤ c ∧ c ≤ 'F' then some (c.toNat - 'A'.toNat + 10)
  else none

/-- The upper-case hexadecimal digit character for a value below 16 — the
`upperhex` table of the Go `url` package. -/
def hexUpper (n : Nat) : Char :=
  if n < 10 then Char.ofNat ('0'.toNat + n)
  else Char.ofNat ('A'.toNat + n - 10)

/-- `url.QueryUnescape` from the Go standard library, as applied by
`url.Parse`/`URL.Query()` to every query value of both the granted-authority
identifier and the ask: `%XX` decodes to the byte `XX`, `+` decodes to a
space, any other character stands for itself; a malformed escape is an
error (`none`). -/
def queryUnescape : List Char → Option (List Char)
  | [] => some []
  | c :: rest =>
    if c = '%' then
      match rest with
      | a :: b :: rest₂ =>
        match hexDigitVal a, hexDigitVal b with
        | some ha, some hb =>
          (queryUnescape rest₂).map (fun t => Char.ofNat (16 * ha + hb) :: t)
        | _, _ => none
      | _ => none
    else if c = '+' then (queryUnescape rest).map (fun t => ' ' :: t)
    else (queryUnescape rest).map (fun t => c :: t)

/-- The characters `url.QueryEscape` leaves unescaped: alphanumerics and
`-`, `_`, `.`, `~`. -/
def isUnreserved (c : Char) : Bool :=
  ('A' ≤ c ∧ c ≤ 'Z') ∨ ('a' ≤ c ∧ c ≤ 'z') ∨ ('0' ≤ c ∧ c ≤ '9') ∨
    c = '-' ∨ c = '_' ∨ c = '.' ∨ c = '~'

/-- `url.QueryEscape` from the Go standard library: unreserved characters
stand for themselves, a space becomes `+`, every other (single-byte)
character becomes `%XX` with upper-case hex digits. -/
def queryEscape : List Char → List Char
  | [] => []
  | c :: rest =>
    if isUnreserved c then c :: queryEscape rest
    else if c = ' ' then '+' :: queryEscape rest
    else '%' :: hexUpper (c.toNat / 16) :: hexUpper (c.toNat % 16) :: queryEscape rest

/-- The privacy-key comparison pipeline of the matcher at the wire level,
for the `create` action: the granted authority's `privacyKeys` wire values
and the ask's `privateFrom` wire value are query-unescaped by URL parsing
(as in the plugin, where both sides are `url.Parse`d) and the decoded values
reach `matchAuthority`; a malformed escape on either side is a parse
failure (`none`). Both sides are private-visibility with the same concrete
account, so the privacy-key check is the deciding step. -/
def matchCreateWire (account : Account) (grantedKeyWires : List (List Char))
    (askPrivateFromWire : List Char) : Option Bool :=
  match grantedKeyWires.mapM queryUnescape, queryUnescape askPrivateFromWire with
  | some gks, some pf =>
    some (matchAuthority
      { visibility := Visibility.priv
        action := Action.create
        fromAcc := account
        toAcc := account
        privateFrom := String.mk pf
        parties := [] }
      { visibility := Visibility.priv
        account := account
        action := Action.create
        ownedBy := []
        privacyKeys := gks.map String.mk })
  | _, _ => none

/-- `strings.SplitN(s, sep, 2)` restricted to a single-character separator,
reported as `none` when the separator does not occur (the `len(elem) != 2`
case of `rpc.secureCall`) and as the two parts otherwise. -/
def splitOnFirst (sep : Char) : List Char → Option (List Char × List Char)
  | [] => none
  | c :: rest =>
    if c = sep then some ([], rest)
    else (splitOnFirst sep rest).map (fun p => (c :: p.1, p.2))

/-- The method-access stage of `rpc.secureCall`: split the qualified method
name on the first separator and run `verifyAccess`; a name with no separator
is only logged as a warning and the check is skipped (no error). -/
def methodAccessErr (authToken : Token) (msgMethod : String) : Option GoError :=
  match splitOnFirst '_' msgMethod.toList with
  | none => none
  | some (service, method) =>
    verifyAccess (String.mk service) (String.mk method) authToken.authorities

/-- The security-relevant values resolvable from a secured context
(`rpc.securityContext`): the recorded authentication error, the
preauthenticated token, the server multitenancy flag and the
request-supplied private state identifier, each possibly absent. -/
structure SecCtx where
  authenticationError : Option GoError
  preauthenticatedToken : Option Token
  isMultitenant : Option Bool
  requestPSI : Option String
deriving Repr, DecidableEq

/-- The context returned by a successful `rpc.secureCall`: `secCtx = none`
models `context.Background()` (the resolver produced no security context);
`authorizedPSI` is the value recorded under `CtxPrivateStateIdentifier`. -/
structure SecuredContext where
  secCtx : Option SecCtx
  authorizedPSI : Option String
deriving Repr, DecidableEq

/-- `rpc.secureCall`: verifies a call using the resolved security context.
The external collaborators `multitenancy.Authorize` and
`multitenancy.ExtractPSI` (outside the middleware, §6 of the spec) are
passed as the `authorize` and `extractPSI` parameters. Steps, as in the
source: resolve the context (none ⇒ plain background context); propagate a
recorded authentication error; with a preauthenticated token, check expiry,
split the qualified method name on the separator and check method access
(skipped with only a warning when the name has no separator); when the
server is multitenant, authorize the request-supplied PSI against the token
(`ErrNotAuthorized` when refused) or, absent a request PSI, extract the PSI
from the token's claim, and record the authorized PSI into the context. -/
def secureCall (authorize : Token → String → Except GoError Bool)
    (extractPSI : Token → Except GoError String)
    (now : Int) (resolved : Option SecCtx) (msgMethod : String) :
    Except GoError SecuredContext :=
  match resolved with
  | none => Except.ok { secCtx := none, authorizedPSI := none }
  | some secCtx =>
    match secCtx.authenticationError with
    | some err => Except.error err
    | none =>
      match secCtx.preauthenticatedToken with
      | none => Except.ok { secCtx := some secCtx, authorizedPSI := none }
      | some authToken =>
        match verifyExpiration now (some authToken) with
        | some err => Except.error err
        | none =>
          match methodAccessErr authToken msgMethod with
          | some err => Except.error err
          | none =>
            if secCtx.isMultitenant = some true then
              match secCtx.requestPSI with
              | none =>
                match extractPSI authToken with
                | Except.error err => Except.error err
                | Except.ok psi =>
                  Except.ok { secCtx := some secCtx, authorizedPSI := some psi }
              | some requestPSI =>
                match authorize authToken requestPSI with
                | Except.error err => Except.error err
                | Except.ok false => Except.error GoError.errNotAuthorized
                | Except.ok true =>
                  Except.ok { secCtx := some secCtx, authorizedPSI := some requestPSI }
            else
              Except.ok { secCtx := some secCtx, authorizedPSI := none }

/-! ## Theorems -/

/-- C1 counterexample: the claim says a token whose `expiresAt` field is
absent never fails the expiry check; in fact `verifyExpiration` fails such a
token with the invalid-timestamp error (protobuf timestamp conversion
rejects a nil timestamp), so it does not return nil. -/
theorem verifyExpiration_absentExpiry_counterexample :
    verifyExpiration 0 (some { authorities := [], expiredAt := none }) ≠ none := by
  decide

/-- C1 (amended): `verifyExpiration` returns nil for an absent (nil) token;
but a present token whose `expiresAt` field is absent is not perpetually
valid — it always fails with the invalid-timestamp error, independent of the
current time. -/
theorem verifyExpiration_absentExpiry (now : Int) (tok : Token)
    (h : tok.expiredAt = none) :
    verifyExpiration now none = none ∧
      verifyExpiration now (some tok) =
        some (GoError.plain "invalid timestamp in token: timestamp: nil Timestamp") := by
  obtain ⟨auths, exp⟩ := tok
  cases h
  exact ⟨rfl, rfl⟩

/-- Witness for C1: the amended theorem applied to a concrete token with no
expiry at a concrete time. -/
theorem verifyExpiration_absentExpiry_witness :
    ({ authorities := [], expiredAt := none } : Token).expiredAt = none ∧
      (verifyExpiration 0 none = none ∧
        verifyExpiration 0 (some { authorities := [], expiredAt := none }) =
          some (GoError.plain "invalid timestamp in token: timestamp: nil Timestamp")) :=
  ⟨rfl, verifyExpiration_absentExpiry 0 _ rfl⟩

/-- One scan step of `verifyAccess`: the head authority either grants the
call (any of the four wildcard/exact conditions) or the scan continues. -/
theorem verifyAccess_cons (service method : String) (a : MethodAuthority)
    (rest : List MethodAuthority) :
    verifyAccess service method (a :: rest) =
      if grantsAccess service method a then none
      else verifyAccess service method rest := by
  simp only [verifyAccess, grantsAccess]
  split_ifs <;> first | rfl | tauto

/-- C6: `verifyAccess` returns nil iff some authority `(s, m)` in the list
satisfies `s = "*" ∧ m = "*"`, `s = "*" ∧ m = method`, `s = service ∧ m = "*"`
or `s = service ∧ m = method`; when no authority matches it returns the
denial security error naming `service_method`. -/
theorem verifyAccess_characterization (service method : String)
    (authorities : List MethodAuthority) :
    (verifyAccess service method authorities = none ↔
      ∃ a ∈ authorities, grantsAccess service method a) ∧
      ((∀ a ∈ authorities, ¬ grantsAccess service method a) →
        verifyAccess service method authorities =
          some (GoError.securityError
            (service ++ serviceMethodSeparator ++ method ++ " - access denied"))) := by
  induction authorities with
  | nil => exact ⟨by simp [verifyAccess], fun _ => rfl⟩
  | cons a rest ih =>
    rw [verifyAccess_cons]
    by_cases h : grantsAccess service method a
    · rw [if_pos h]
      refine ⟨by simp [h], fun hall => absurd h (hall a (List.mem_cons_self a rest))⟩
    · rw [if_neg h]
      refine ⟨?_, fun hall => ih.2 fun x hx => hall x (List.mem_cons_of_mem a hx)⟩
      rw [ih.1]
      constructor
      · rintro ⟨x, hx, hgx⟩
        exact ⟨x, List.mem_cons_of_mem a hx, hgx⟩
      · rintro ⟨x, hx, hgx⟩
        rcases List.mem_cons.mp hx with rfl | hx'
        · exact absurd hgx h
        · exact ⟨x, hx', hgx⟩

/-- Witness for C6: the spec's example — authority `("eth", "*")` does not
authorize `net_version`, and the denial names `net_version`. -/
theorem verifyAccess_witness :
    (∀ a ∈ [({ service := "eth", method := "*" } : MethodAuthority)],
        ¬ grantsAccess "net" "version" a) ∧
      verifyAccess "net" "version" [{ service := "eth", method := "*" }] =
        some (GoError.securityError
          ("net" ++ serviceMethodSeparator ++ "version" ++ " - access denied")) :=
  ⟨by decide, (verifyAccess_characterization "net" "version" _).2 (by decide)⟩

/-- The inner scan of the decision manager succeeds iff some authority
matches the attribute. -/
theorem anyAuthorityMatches_iff (attr : Ask) (gs : List GrantedAuthority) :
    anyAuthorityMatches attr gs = true ↔ ∃ g ∈ gs, matchAuthority attr g = true := by
  induction gs with
  | nil => simp [anyAuthorityMatches]
  | cons g rest ih =>
    simp only [anyAuthorityMatches]
    by_cases h : matchAuthority attr g = true
    · simp [h]
    · simp [h, ih]

/-- C4: `isAuthorized` returns true on the empty attribute list, and in
general returns true iff every attribute is satisfied by at least one
granted authority of the token (AND across attributes, OR across
authorities), each attribute evaluated independently by the matcher. -/
theorem isAuthorized_characterization (authorities : List GrantedAuthority)
    (attributes : List Ask) :
    isAuthorized authorities [] = true ∧
      (isAuthorized authorities attributes = true ↔
        ∀ attr ∈ attributes, ∃ g ∈ authorities, matchAuthority attr g = true) := by
  refine ⟨rfl, ?_⟩
  induction attributes with
  | nil => simp [isAuthorized]
  | cons attr rest ih =>
    simp only [isAuthorized]
    by_cases h : anyAuthorityMatches attr authorities = true
    · rw [if_pos h, ih, List.forall_mem_cons, ← anyAuthorityMatches_iff]
      simp [h]
    · rw [if_neg h]
      simp [List.forall_mem_cons, ← anyAuthorityMatches_iff, h]

/-- C9: the error response built by `securityErrorMessage` carries the ID of
the original request, and a security-denial error yields the reserved code
-32001 (distinct from the generic default code) with the denial message. -/
theorem securityErrorMessage_id_and_code (forMsg : JsonrpcMessage) (err : GoError) :
    (securityErrorMessage forMsg err).id = forMsg.id ∧
      (∀ m, err = GoError.securityError m →
        (securityErrorMessage forMsg err).error =
          some { code := securityErrorCode, message := m } ∧
          securityErrorCode ≠ defaultErrorCode) := by
  refine ⟨rfl, ?_⟩
  rintro m rfl
  exact ⟨rfl, by decide⟩

/-- Witness for C9: a concrete denial response preserves a concrete request
ID and carries code -32001. -/
theorem securityErrorMessage_witness :
    (securityErrorMessage { version := "2.0", id := ['7'], method := "", error := none }
        (GoError.securityError "token expired")).id = ['7'] ∧
      ((securityErrorMessage { version := "2.0", id := ['7'], method := "", error := none }
          (GoError.securityError "token expired")).error =
        some { code := securityErrorCode, message := "token expired" } ∧
        securityErrorCode ≠ defaultErrorCode) :=
  ⟨(securityErrorMessage_id_and_code _ _).1,
   (securityErrorMessage_id_and_code _ (GoError.securityError "token expired")).2
     "token expired" rfl⟩

/-- The first occurrence of `c` in `l₁ ++ c :: l₂` is at position
`l₁.length` when `c` does not occur in `l₁`. -/
theorem indexOfChar_append_cons (c : Char) (l₁ l₂ : List Char) (h : c ∉ l₁) :
    indexOfChar c (l₁ ++ c :: l₂) = some l₁.length := by
  induction l₁ with
  | nil => simp [indexOfChar]
  | cons x rest ih =>
    have hx : x ≠ c := fun e => h (e ▸ List.mem_cons_self x rest)
    have h' : c ∉ rest := fun m => h (List.mem_cons_of_mem x m)
    simp [indexOfChar, hx, ih h']

/-- C5 counterexample: the claim quantifies over every non-empty tenant
identifier, but a tenant identifier containing the separator character does
not round-trip — decoding stops at the first `/`, although the counter
`['1']` is a plain counter with no quote or separator and the identifier is
non-empty. -/
theorem decodePSI_encodePSI_counterexample :
    ('"' ∉ ['1'] ∧ '/' ∉ ['1']) ∧ (['a', '/', 'b'] : List Char) ≠ [] ∧
      decodePSI (encodePSI ['1'] ['a', '/', 'b']) ≠ ['a', '/', 'b'] := by
  decide

/-- C5 (amended): `decodePSI (encodePSI id psi)` recovers `psi` for every
non-empty tenant identifier that contains no separator character (for any
counter bytes); encoding with the empty identifier is the identity; and
decoding any raw ID lacking the surrounding double quotes or the separator
yields the reserved default identifier. -/
theorem decodePSI_encodePSI (id psi : List Char) :
    encodePSI id [] = id ∧
      (psi ≠ [] → '/' ∉ psi → decodePSI (encodePSI id psi) = psi) ∧
      (∀ rawId : List Char,
        (¬(rawId.head? = some '"' ∧ rawId.getLast? = some '"') ∨
          indexOfChar '/' rawId = none) →
        decodePSI rawId = DefaultPrivateStateIdentifier) := by
  refine ⟨rfl, ?_, ?_⟩
  · intro hne hsep
    rw [encodePSI, if_neg hne]
    have hassoc : '"' :: psi ++ '/' :: id ++ ['"'] =
        ('"' :: (psi ++ '/' :: id)) ++ ['"'] := by
      simp
    have hlast : ('"' :: psi ++ '/' :: id ++ ['"']).getLast? = some '"' := by
      rw [hassoc]
      exact List.getLast?_concat _
    have hidx : indexOfChar '/' ('"' :: psi ++ '/' :: id ++ ['"']) =
        some (psi.length + 1) := by
      have : indexOfChar '/' (psi ++ '/' :: (id ++ ['"'])) = some psi.length :=
        indexOfChar_append_cons '/' psi (id ++ ['"']) hsep
      simp [indexOfChar, this]
    rw [decodePSI, if_pos ⟨rfl, hlast⟩, hidx]
    simp [List.take_left]
  · intro rawId h
    rcases h with h | h
    · simp [decodePSI, h]
    · simp [decodePSI, h]

/-- Witness for C5: the spec's example identifier round-trips through a
concrete counter. -/
theorem decodePSI_encodePSI_witness :
    ("tenantA".toList ≠ [] ∧ '/' ∉ "tenantA".toList) ∧
      decodePSI (encodePSI "32".toList "tenantA".toList) = "tenantA".toList :=
  ⟨by decide, (decodePSI_encodePSI "32".toList "tenantA".toList).2.1
    (by decide) (by decide)⟩

/-- C2: when the granted account or the ask's path-level account is the
wildcard, the visibility and ownership checks are skipped — `matchAuthority`
degenerates to the action and privacy-key checks alone. -/
theorem matchAuthority_wildcard_bypass (ask : Ask) (granted : GrantedAuthority)
    (h : granted.account = Account.anyAccount ∨ pathAccount ask = Account.anyAccount) :
    matchAuthority ask granted = (actionOk ask granted && privacyOk ask granted) := by
  have hb : accountBypass ask granted = true := by
    simp [accountBypass]
    tauto
  rw [matchAuthority, if_pos hb]
  cases h1 : actionOk ask granted <;> cases h2 : privacyOk ask granted <;>
    simp [h1, h2]

/-- The public ask of the `TestMatch_whenPublic` scenario: a create with the
wildcard account in path position. -/
def askPublicWildcard : Ask :=
  { visibility := Visibility.pub
    action := Action.create
    fromAcc := Account.anyAccount
    toAcc := Account.addr "0x0"
    privateFrom := ""
    parties := [] }

/-- The granted authority of the `TestMatch_whenPublic` scenario: a private
create capability with a concrete account. -/
def grantedPrivateConcrete : GrantedAuthority :=
  { visibility := Visibility.priv
    account := Account.addr "0xa1b1c1"
    action := Action.create
    ownedBy := []
    privacyKeys := ["A/"] }

/-- Witness for C2: a private granted authority with a concrete account
matches a public ask whose account is the wildcard, even though the
visibilities differ, the action being compatible (the `TestMatch_whenPublic`
shape). -/
theorem matchAuthority_wildcard_bypass_witness :
    (grantedPrivateConcrete.account = Account.anyAccount ∨
      pathAccount askPublicWildcard = Account.anyAccount) ∧
      matchAuthority askPublicWildcard grantedPrivateConcrete =
        (actionOk askPublicWildcard grantedPrivateConcrete &&
          privacyOk askPublicWildcard grantedPrivateConcrete) ∧
      matchAuthority askPublicWildcard grantedPrivateConcrete = true :=
  ⟨by decide, matchAuthority_wildcard_bypass _ _ (by decide), by decide⟩

/-- A private read ask privy to key `A1` (path account wildcard). -/
def askPrivateReadA1 : Ask :=
  { visibility := Visibility.priv
    action := Action.read
    fromAcc := Account.addr "0xa1b1c1"
    toAcc := Account.anyAccount
    privateFrom := ""
    parties := ["A1"] }

/-- A private write grant over privacy key `A1` (the
`TestMatch_whenPathNotMatched` shape: the granted action differs from the
requested one). -/
def grantedPrivateWriteA1 : GrantedAuthority :=
  { visibility := Visibility.priv
    account := Account.anyAccount
    action := Action.write
    ownedBy := [Account.anyAccount]
    privacyKeys := ["A1"] }

/-- C3 counterexample: the claim states the intersection condition as an
unconditional iff for every private read/write ask against a granted
authority with non-empty privacy keys; but a granted `write` authority never
matches a `read` ask even when the privacy keys intersect the parties
(`TestMatch_whenPathNotMatched`). -/
theorem matchAuthority_privacyKeys_counterexample :
    askPrivateReadA1.visibility = Visibility.priv ∧
      askPrivateReadA1.action = Action.read ∧
      grantedPrivateWriteA1.privacyKeys ≠ [] ∧
      (∃ p ∈ askPrivateReadA1.parties, p ∈ grantedPrivateWriteA1.privacyKeys) ∧
      matchAuthority askPrivateReadA1 grantedPrivateWriteA1 = false := by
  decide

/-- C3 (amended): provided the stages other than the privacy-key check pass
— the account-wildcard bypass applies or the visibility and ownership checks
succeed, and the action is compatible — a private ask against a granted
authority with a non-empty `privacyKeys` set matches iff, for `read`/`write`,
`ask.parties` intersects `granted.privacyKeys` and, for `create`,
`ask.privateFrom` is a member of `granted.privacyKeys`. -/
theorem matchAuthority_privacyKeys (ask : Ask) (granted : GrantedAuthority)
    (hvis : ask.visibility = Visibility.priv)
    (hkeys : granted.privacyKeys ≠ [])
    (hstage : accountBypass ask granted = true ∨
      (visibilityOk ask granted = true ∧ ownershipOk ask granted = true))
    (hact : actionOk ask granted = true) :
    ((ask.action = Action.read ∨ ask.action = Action.write) →
      (matchAuthority ask granted = true ↔
        ∃ p ∈ ask.parties, p ∈ granted.privacyKeys)) ∧
      (ask.action = Action.create →
        (matchAuthority ask granted = true ↔
          ask.privateFrom ∈ granted.privacyKeys)) := by
  have hm : matchAuthority ask granted = privacyOk ask granted := by
    rw [matchAuthority]
    by_cases hb : accountBypass ask granted = true
    · rw [if_pos hb]
      cases hp : privacyOk ask granted <;> simp [hact, hp]
    · rw [if_neg hb]
      rcases hstage with hb' | ⟨hv, ho⟩
      · exact absurd hb' hb
      · cases hp : privacyOk ask granted <;> simp [hv, hact, ho, hp]
  have hpriv : privacyOk ask granted =
      match ask.action with
      | Action.create => granted.privacyKeys.contains ask.privateFrom
      | _ => ask.parties.any (fun p => granted.privacyKeys.contains p) := by
    simp only [privacyOk]
    rw [if_pos ⟨hvis, hkeys⟩]
  constructor
  · rintro (ha | ha) <;> rw [hm, hpriv, ha] <;>
      simp [List.any_eq_true]
  · intro ha
    rw [hm, hpriv, ha]
    simp

/-- The private read ask of
`TestMatch_whenContractReadPermission_TmKeysIntersect`: privy to `B`, `C`. -/
def askPartiesBC : Ask :=
  { visibility := Visibility.priv
    action := Action.read
    fromAcc := Account.addr "0xa1b1c1"
    toAcc := Account.anyAccount
    privateFrom := ""
    parties := ["B", "C"] }

/-- The private read grant of the same test: privacy keys `A`, `B`. -/
def grantedKeysAB : GrantedAuthority :=
  { visibility := Visibility.priv
    account := Account.anyAccount
    action := Action.read
    ownedBy := []
    privacyKeys := ["A", "B"] }

/-- Witness for C3: the intersecting-keys read scenario, with every side
condition discharged concretely. -/
theorem matchAuthority_privacyKeys_witness :
    (askPartiesBC.visibility = Visibility.priv ∧
      grantedKeysAB.privacyKeys ≠ [] ∧
      (accountBypass askPartiesBC grantedKeysAB = true ∨
        (visibilityOk askPartiesBC grantedKeysAB = true ∧
          ownershipOk askPartiesBC grantedKeysAB = true)) ∧
      actionOk askPartiesBC grantedKeysAB = true) ∧
      ((askPartiesBC.action = Action.read ∨ askPartiesBC.action = Action.write) →
        (matchAuthority askPartiesBC grantedKeysAB = true ↔
          ∃ p ∈ askPartiesBC.parties, p ∈ grantedKeysAB.privacyKeys)) :=
  ⟨by decide,
   (matchAuthority_privacyKeys askPartiesBC grantedKeysAB
     (by decide) (by decide) (by decide) (by decide)).1⟩

/-- C10: a qualified method name containing no service/method separator
skips the method-level access check entirely — the check stage produces no
error for any token — and a call with a preauthenticated, unexpired token on
a non-multitenant connection proceeds to the authorized outcome instead of
being denied, whatever the token's authorities. -/
theorem secureCall_no_separator (authorize : Token → String → Except GoError Bool)
    (extractPSI : Token → Except GoError String) (now : Int)
    (secCtx : SecCtx) (tok : Token) (msgMethod : String)
    (hauth : secCtx.authenticationError = none)
    (htok : secCtx.preauthenticatedToken = some tok)
    (hexp : verifyExpiration now (some tok) = none)
    (hsep : splitOnFirst '_' msgMethod.toList = none) :
    methodAccessErr tok msgMethod = none ∧
      (secCtx.isMultitenant ≠ some true →
        secureCall authorize extractPSI now (some secCtx) msgMethod =
          Except.ok { secCtx := some secCtx, authorizedPSI := none }) := by
  have hacc : methodAccessErr tok msgMethod = none := by
    rw [methodAccessErr, hsep]
  refine ⟨hacc, fun hmt => ?_⟩
  simp [secureCall, hauth, htok, hexp, hacc, hmt]

/-- A preauthenticated token granting no method authority at all, expiring
at 10 seconds past the epoch. -/
def tokenNoAuthorities : Token :=
  { authorities := []
    expiredAt := some { seconds := 10, nanos := 0 } }

/-- A resolved non-multitenant security context carrying
`tokenNoAuthorities`. -/
def nonMultitenantCtx : SecCtx :=
  { authenticationError := none
    preauthenticatedToken := some tokenNoAuthorities
    isMultitenant := none
    requestPSI := none }

/-- Witness for C10: with a separator-free method name and a token granting
no authority at all (so any performed access check would deny), the call
still proceeds to the authorized outcome. -/
theorem secureCall_no_separator_witness :
    (nonMultitenantCtx.authenticationError = none ∧
      nonMultitenantCtx.preauthenticatedToken = some tokenNoAuthorities ∧
      verifyExpiration 0 (some tokenNoAuthorities) = none ∧
      splitOnFirst '_' "noseparator".toList = none ∧
      nonMultitenantCtx.isMultitenant ≠ some true) ∧
      secureCall (fun _ _ => Except.ok false) (fun _ => Except.ok "p") 0
          (some nonMultitenantCtx) "noseparator" =
        Except.ok { secCtx := some nonMultitenantCtx, authorizedPSI := none } :=
  ⟨by decide,
   (secureCall_no_separator (fun _ _ => Except.ok false) (fun _ => Except.ok "p") 0
     nonMultitenantCtx tokenNoAuthorities "noseparator"
     rfl rfl (by decide) (by decide)).2 (by decide)⟩

/-- C8: on a multitenant connection with a preauthenticated, unexpired token
passing the method check, a caller-supplied tenant identifier is authorized
against the token before use: a refusal yields the `ErrNotAuthorized`
sentinel (structurally distinct from the generic security denial), an
approval records the requested identifier, and when no identifier was
supplied the authorized tenant comes from the token's embedded claim via the
extractor. -/
theorem secureCall_tenant (authorize : Token → String → Except GoError Bool)
    (extractPSI : Token → Except GoError String) (now : Int)
    (secCtx : SecCtx) (tok : Token) (msgMethod : String)
    (hauth : secCtx.authenticationError = none)
    (htok : secCtx.preauthenticatedToken = some tok)
    (hexp : verifyExpiration now (some tok) = none)
    (hacc : methodAccessErr tok msgMethod = none)
    (hmt : secCtx.isMultitenant = some true) :
    (∀ psi, secCtx.requestPSI = some psi → authorize tok psi = Except.ok false →
      secureCall authorize extractPSI now (some secCtx) msgMethod =
        Except.error GoError.errNotAuthorized) ∧
      (∀ psi, secCtx.requestPSI = some psi → authorize tok psi = Except.ok true →
        secureCall authorize extractPSI now (some secCtx) msgMethod =
          Except.ok { secCtx := some secCtx, authorizedPSI := some psi }) ∧
      (∀ p, secCtx.requestPSI = none → extractPSI tok = Except.ok p →
        secureCall authorize extractPSI now (some secCtx) msgMethod =
          Except.ok { secCtx := some secCtx, authorizedPSI := some p }) ∧
      (∀ s, GoError.errNotAuthorized ≠ GoError.securityError s) := by
  refine ⟨?_, ?_, ?_, fun s h => by cases h⟩
  · intro psi hreq hdeny
    simp [secureCall, hauth, htok, hexp, hacc, hmt, hreq, hdeny]
  · intro psi hreq hallow
    simp [secureCall, hauth, htok, hexp, hacc, hmt, hreq, hallow]
  · intro p hreq hext
    simp [secureCall, hauth, htok, hexp, hacc, hmt, hreq, hext]

/-- A resolved multitenant security context carrying `tokenNoAuthorities`
and an explicitly requested tenant identifier. -/
def multitenantCtx : SecCtx :=
  { authenticationError := none
    preauthenticatedToken := some tokenNoAuthorities
    isMultitenant := some true
    requestPSI := some "tenant1" }

/-- Witness for C8: a concrete refused tenant request produces exactly the
not-authorized sentinel. -/
theorem secureCall_tenant_witness :
    (multitenantCtx.authenticationError = none ∧
      multitenantCtx.preauthenticatedToken = some tokenNoAuthorities ∧
      verifyExpiration 0 (some tokenNoAuthorities) = none ∧
      methodAccessErr tokenNoAuthorities "noseparator" = none ∧
      multitenantCtx.isMultitenant = some true ∧
      multitenantCtx.requestPSI = some "tenant1") ∧
      secureCall (fun _ _ => Except.ok false) (fun _ => Except.ok "fromClaim") 0
          (some multitenantCtx) "noseparator" =
        Except.error GoError.errNotAuthorized :=
  ⟨by decide,
   (secureCall_tenant (fun _ _ => Except.ok false) (fun _ => Except.ok "fromClaim") 0
     multitenantCtx tokenNoAuthorities "noseparator"
     rfl rfl (by decide) (by decide) rfl).1 "tenant1" rfl rfl⟩

/-- The hex-digit table inverts the hex-value function below 16. -/
theorem hexDigitVal_hexUpper (n : Nat) (h : n < 16) :
    hexDigitVal (hexUpper n) = some n := by
  interval_cases n <;> decide

/-- Unescaping step for an ordinary character (not `%`, not `+`). -/
theorem queryUnescape_cons_plain (c : Char) (rest : List Char) (h1 : c ≠ '%')
    (h2 : c ≠ '+') :
    queryUnescape (c :: rest) = (queryUnescape rest).map (fun t => c :: t) := by
  rcases rest with _ | ⟨a, _ | ⟨b, rest₂⟩⟩
  · rw [queryUnescape.eq_3 c [] (by intro x y r hh; cases hh), if_neg h1, if_neg h2]
  · rw [queryUnescape.eq_3 c [a] (by intro x y r hh; cases hh), if_neg h1, if_neg h2]
  · rw [queryUnescape.eq_2, if_neg h1, if_neg h2]

/-- Unescaping step for `+`: it decodes to a space. -/
theorem queryUnescape_cons_plus (rest : List Char) :
    queryUnescape ('+' :: rest) = (queryUnescape rest).map (fun t => ' ' :: t) := by
  have hne : ¬('+' : Char) = '%' := by decide
  rcases rest with _ | ⟨a, _ | ⟨b, rest₂⟩⟩
  · rw [queryUnescape.eq_3 _ [] (by intro x y r hh; cases hh), if_neg hne, if_pos rfl]
  · rw [queryUnescape.eq_3 _ [a] (by intro x y r hh; cases hh), if_neg hne, if_pos rfl]
  · rw [queryUnescape.eq_2, if_neg hne, if_pos rfl]

/-- Unescaping step for a valid percent escape. -/
theorem queryUnescape_cons_pct (a b : Char) (rest : List Char) (ha hb : Nat)
    (h1 : hexDigitVal a = some ha) (h2 : hexDigitVal b = some hb) :
    queryUnescape ('%' :: a :: b :: rest) =
      (queryUnescape rest).map (fun t => Char.ofNat (16 * ha + hb) :: t) := by
  rw [queryUnescape.eq_2, if_pos rfl, h1, h2]

/-- Query-unescaping inverts query-escaping on single-byte (ASCII)
characters. -/
theorem queryUnescape_queryEscape (k : List Char) (h : ∀ c ∈ k, c.toNat < 128) :
    queryUnescape (queryEscape k) = some k := by
  induction k with
  | nil => rfl
  | cons c rest ih =>
    have hc : c.toNat < 128 := h c (List.mem_cons_self c rest)
    have hrest : ∀ x ∈ rest, x.toNat < 128 := fun x hx => h x (List.mem_cons_of_mem c hx)
    have ihr := ih hrest
    by_cases hu : isUnreserved c = true
    · have h1 : c ≠ '%' := fun e => by subst e; simp [isUnreserved] at hu
      have h2 : c ≠ '+' := fun e => by subst e; simp [isUnreserved] at hu
      rw [queryEscape.eq_2, if_pos hu, queryUnescape_cons_plain c _ h1 h2, ihr]
      rfl
    · by_cases hs : c = ' '
      · subst hs
        rw [queryEscape.eq_2, if_neg hu, if_pos rfl, queryUnescape_cons_plus, ihr]
        rfl
      · have hx1 : hexDigitVal (hexUpper (c.toNat / 16)) = some (c.toNat / 16) :=
          hexDigitVal_hexUpper _ (by omega)
        have hx2 : hexDigitVal (hexUpper (c.toNat % 16)) = some (c.toNat % 16) :=
          hexDigitVal_hexUpper _ (by omega)
        rw [queryEscape.eq_2, if_neg hu, if_neg hs,
          queryUnescape_cons_pct _ _ _ _ _ hx1 hx2, ihr]
        simp only [Option.map_some']
        rw [Nat.div_add_mod, Char.ofNat_toNat]

/-- A private create ask whose `privateFrom` equals the single granted
privacy key always matches, for any account pair. -/
theorem matchAuthority_singleKey (account : Account) (kk : List Char) :
    matchAuthority
      { visibility := Visibility.priv
        action := Action.create
        fromAcc := account
        toAcc := account
        privateFrom := String.mk kk
        parties := [] }
      { visibility := Visibility.priv
        account := account
        action := Action.create
        ownedBy := []
        privacyKeys := [String.mk kk] } = true := by
  by_cases hb : accountBypass
      { visibility := Visibility.priv
        action := Action.create
        fromAcc := account
        toAcc := account
        privateFrom := String.mk kk
        parties := [] }
      { visibility := Visibility.priv
        account := account
        action := Action.create
        ownedBy := []
        privacyKeys := [String.mk kk] } = true
  · rw [matchAuthority, if_pos hb]
    simp [actionOk, privacyOk]
  · rw [matchAuthority, if_neg hb]
    simp [visibilityOk, actionOk, ownershipOk, privacyOk]

/-- C7 counterexample: the claim requires a grant carrying a key raw
(decoded) to match an ask carrying the same key percent-escaped, and vice
versa; for the key value `T+c` both directions fail, because the raw `+`
query-decodes to a space while the escaped `%2B` decodes to `+`
(the `TestMatch_whenNotEscaped` asymmetry). -/
theorem matchCreateWire_counterexample :
    queryEscape "T+c".toList = "T%2Bc".toList ∧
      matchCreateWire (Account.addr "0xed9d") ["T+c".toList] "T%2Bc".toList =
        some false ∧
      matchCreateWire (Account.addr "0xed9d") ["T%2Bc".toList] "T+c".toList =
        some false := by
  decide

/-- C7 (amended): for every key value made of single-byte characters that
query-decoding leaves unchanged (no `+`, no `%`), comparison happens on the
decoded value: a grant carrying the key percent-escaped matches an ask
carrying it raw, and vice versa. -/
theorem matchCreateWire_escaped (account : Account) (k : List Char)
    (hascii : ∀ c ∈ k, c.toNat < 128)
    (hself : queryUnescape k = some k) :
    matchCreateWire account [queryEscape k] k = some true ∧
      matchCreateWire account [k] (queryEscape k) = some true := by
  have hesc := queryUnescape_queryEscape k hascii
  constructor
  · simp only [matchCreateWire, List.mapM_cons, List.mapM_nil, hesc, hself,
      Option.pure_def, Option.bind_some, Option.bind_eq_bind]
    simp [matchAuthority_singleKey]
  · simp only [matchCreateWire, List.mapM_cons, List.mapM_nil, hesc, hself,
      Option.pure_def, Option.bind_some, Option.bind_eq_bind]
    simp [matchAuthority_singleKey]

/-- Witness for C7: the key `A/b` (single-byte, free of `+` and `%`) matches
across escaped and raw representations in both directions. -/
theorem matchCreateWire_escaped_witness :
    ((∀ c ∈ "A/b".toList, c.toNat < 128) ∧
      queryUnescape "A/b".toList = some "A/b".toList) ∧
      (matchCreateWire (Account.addr "0xed9d") [queryEscape "A/b".toList]
          "A/b".toList = some true ∧
        matchCreateWire (Account.addr "0xed9d") ["A/b".toList]
          (queryEscape "A/b".toList) = some true) :=
  ⟨⟨by decide, by decide⟩,
   matchCreateWire_escaped (Account.addr "0xed9d") "A/b".toList
     (by decide) (by decide)⟩

end Quorum
